import Mathlib

/-!
Shallow embedding of the braille display driver
(`BRAILLE_CONFIG.h` / `BRAILLE_CONFIG.cpp`) and proofs about it.

Conventions of the embedding:
* `uint8_t` / `unsigned long` values are modelled as `Nat`; the pattern
  arguments of the cell API are `uint8_t` parameters in the source, so the
  corresponding theorems carry a `p < 256` bound where the claim does.
* `millis()` is modelled by threading an explicit `now : Nat` argument
  through every operation that reads the clock.
* The fixed-size C arrays `cells[10]` and `dotStates[60]` are modelled as
  total functions `Nat → _`; all source loops run over `List.range`, with
  exactly the bounds of the corresponding C loops.
* The shift-register buffer `uint8_t shiftRegisterData[15]` is a
  `List Nat` of length 15 whose entries stay below 256; the C expression
  `x &= ~(1 << b)` on a `uint8_t` is rendered as `x &&& (255 ^^^ (1 <<< b))`,
  which clears exactly the same bit of a byte.
* Hardware writes (`pinMode`, `digitalWrite`, `shiftOut`) and serial
  logging have no effect on the modelled state; `refresh` therefore only
  records `lastUpdateTime` when the display is enabled.
-/

/-! ## Hardware configuration constants (BRAILLE_CONFIG.h) -/

def NUM_BRAILLE_CELLS : Nat := 10
def DOTS_PER_CELL : Nat := 6
def TOTAL_DOTS : Nat := NUM_BRAILLE_CELLS * DOTS_PER_CELL
def OUTPUTS_PER_DOT : Nat := 2
def TOTAL_OUTPUTS : Nat := TOTAL_DOTS * OUTPUTS_PER_DOT
def NUM_SHIFT_REGISTERS : Nat := (TOTAL_OUTPUTS + 7) / 8
def DOT_DIRECTION_UP : Nat := 0
def DOT_DIRECTION_DOWN : Nat := 1
def ACTUATOR_SETTLE_TIME : Nat := 50
def BRAILLE_CAPITAL_SIGN : Nat := 0x20
def BRAILLE_NUMBER_SIGN : Nat := 0x3C
def BRAILLE_SPACE : Nat := 0x00

/-- Braille alphabet patterns A..Z (`BRAILLE_ALPHABET[26]`). -/
def BRAILLE_ALPHABET : List Nat :=
  [0x01, 0x03, 0x09, 0x19, 0x11, 0x0B, 0x1B, 0x13, 0x0A, 0x1A,
   0x05, 0x07, 0x0D, 0x1D, 0x15, 0x0F, 0x1F, 0x17, 0x0E, 0x1E,
   0x25, 0x27, 0x3A, 0x2D, 0x3D, 0x35]

/-- Braille digit patterns 0..9 (`BRAILLE_NUMBERS[10]`). -/
def BRAILLE_NUMBERS : List Nat :=
  [0x1A, 0x01, 0x03, 0x09, 0x19, 0x11, 0x0B, 0x1B, 0x13, 0x0A]

/-- Punctuation patterns (`BRAILLE_PUNCTUATION[16]`). -/
def BRAILLE_PUNCTUATION : List Nat :=
  [0x00, 0x16, 0x04, 0x30, 0x32, 0x0C, 0x26, 0x06,
   0x12, 0x23, 0x1C, 0x2C, 0x18, 0x2E, 0x2A, 0x24]

/-! ## Data model (struct BrailleCell, struct DotState) -/

/-- `struct BrailleCell` from BRAILLE_CONFIG.h. -/
structure BrailleCell where
  pattern : Nat
  currentState : Nat
  isActive : Bool
  updateTime : Nat
  needsUpdate : Bool
deriving DecidableEq

/-- `struct DotState` from BRAILLE_CONFIG.h. -/
structure DotState where
  targetState : Bool
  currentState : Bool
  actionTime : Nat
  actionPending : Bool
deriving DecidableEq

/-- The private state of `class BrailleDisplay`. -/
structure BrailleDisplay where
  cells : Nat → BrailleCell
  dotStates : Nat → DotState
  shiftRegisterData : List Nat
  displayEnabled : Bool
  lastUpdateTime : Nat

/-! ## Utility functions -/

/-- `isValidBrailleCell`. -/
def isValidBrailleCell (cellIndex : Nat) : Bool :=
  cellIndex < NUM_BRAILLE_CELLS

/-- `mirrorBraillePattern`: swap dots 1↔4, 2↔5, 3↔6. -/
def mirrorBraillePattern (pattern : Nat) : Nat :=
  let m0 := 0
  let m1 := if pattern &&& 0x01 ≠ 0 then m0 ||| 0x08 else m0
  let m2 := if pattern &&& 0x02 ≠ 0 then m1 ||| 0x10 else m1
  let m3 := if pattern &&& 0x04 ≠ 0 then m2 ||| 0x20 else m2
  let m4 := if pattern &&& 0x08 ≠ 0 then m3 ||| 0x01 else m3
  let m5 := if pattern &&& 0x10 ≠ 0 then m4 ||| 0x02 else m4
  let m6 := if pattern &&& 0x20 ≠ 0 then m5 ||| 0x04 else m5
  m6

/-! ## Output serializer (shift-register buffer) -/

/-- `clearShiftRegisters`: zero the 15-byte output buffer. -/
def clearShiftRegisters : List Nat :=
  List.replicate NUM_SHIFT_REGISTERS 0

/-- `getDotOutputIndex`: `dotIndex * OUTPUTS_PER_DOT + direction`. -/
def getDotOutputIndex (dotIndex direction : Nat) : Nat :=
  dotIndex * OUTPUTS_PER_DOT + direction

/-- `setShiftRegisterBit`: set or clear one bit of the output buffer.
The source's locals `registerIndex = outputIndex / 8` and
`bitIndex = outputIndex % 8` are inlined. -/
def setShiftRegisterBit (sr : List Nat) (outputIndex : Nat) (state : Bool) :
    List Nat :=
  if outputIndex ≥ TOTAL_OUTPUTS then sr
  else if outputIndex / 8 < NUM_SHIFT_REGISTERS then
    if state then
      sr.set (outputIndex / 8)
        (sr.getD (outputIndex / 8) 0 ||| (1 <<< (outputIndex % 8)))
    else
      sr.set (outputIndex / 8)
        (sr.getD (outputIndex / 8) 0 &&& (255 ^^^ (1 <<< (outputIndex % 8))))
  else sr

/-- One iteration of the `updateShiftRegisters` loop: drive the two output
bits of dot `dotIndex` from its committed `currentState`.  The source's
locals `upOutputIndex` / `downOutputIndex` are inlined. -/
def updateDotOutputs (ds : Nat → DotState) (sr : List Nat) (dotIndex : Nat) :
    List Nat :=
  if (ds dotIndex).currentState then
    setShiftRegisterBit
      (setShiftRegisterBit sr (getDotOutputIndex dotIndex DOT_DIRECTION_UP) true)
      (getDotOutputIndex dotIndex DOT_DIRECTION_DOWN) false
  else
    setShiftRegisterBit
      (setShiftRegisterBit sr (getDotOutputIndex dotIndex DOT_DIRECTION_UP) false)
      (getDotOutputIndex dotIndex DOT_DIRECTION_DOWN) true

/-- `updateShiftRegisters`: rebuild the whole buffer from the dot states
(clear, then set each dot's pair of bits). -/
def updateShiftRegisters (ds : Nat → DotState) : List Nat :=
  (List.range TOTAL_DOTS).foldl (updateDotOutputs ds) clearShiftRegisters

/-- Read output bit `outputIndex` of the buffer (bit `outputIndex % 8` of
byte `outputIndex / 8`), the view the 74HC595 chain receives. -/
def srBit (sr : List Nat) (outputIndex : Nat) : Bool :=
  Nat.testBit (sr.getD (outputIndex / 8) 0) (outputIndex % 8)

/-! ## Actuator scheduler -/

/-- `refresh`: push the buffer to the hardware; only `lastUpdateTime`
is visible in the model, and only when the display is enabled. -/
def refresh (st : BrailleDisplay) (now : Nat) : BrailleDisplay :=
  if st.displayEnabled then { st with lastUpdateTime := now } else st

/-- `setDotState(dotIndex, state, immediate)` at clock value `now`. -/
def setDotState (st : BrailleDisplay) (dotIndex : Nat) (state : Bool)
    (immediate : Bool) (now : Nat) : BrailleDisplay :=
  if dotIndex ≥ TOTAL_DOTS then st
  else if immediate then
    let ds := Function.update st.dotStates dotIndex
      { targetState := state, currentState := state,
        actionTime := now, actionPending := false }
    refresh { st with dotStates := ds,
                      shiftRegisterData := updateShiftRegisters ds } now
  else
    let ds := Function.update st.dotStates dotIndex
      { targetState := state,
        currentState := (st.dotStates dotIndex).currentState,
        actionTime := now + ACTUATOR_SETTLE_TIME, actionPending := true }
    { st with dotStates := ds }

/-- One iteration of the `processPendingActions` loop on the accumulator
(dot-state array, `updateNeeded` flag): commit dot `i` when it is pending
and due. -/
def ppaStep (now : Nat) (acc : (Nat → DotState) × Bool) (i : Nat) :
    (Nat → DotState) × Bool :=
  if (acc.1 i).actionPending = true ∧ (acc.1 i).actionTime ≤ now then
    (Function.update acc.1 i
      { acc.1 i with currentState := (acc.1 i).targetState,
                     actionPending := false },
     true)
  else acc

/-- `processPendingActions()` at clock value `now`: commit every due
pending dot, then re-serialize (and refresh if enabled) when anything
committed. -/
def processPendingActions (st : BrailleDisplay) (now : Nat) : BrailleDisplay :=
  if ((List.range TOTAL_DOTS).foldl (ppaStep now) (st.dotStates, false)).2 then
    refresh { st with
      dotStates :=
        ((List.range TOTAL_DOTS).foldl (ppaStep now) (st.dotStates, false)).1,
      shiftRegisterData := updateShiftRegisters
        ((List.range TOTAL_DOTS).foldl (ppaStep now) (st.dotStates, false)).1 }
      now
  else
    { st with dotStates :=
        ((List.range TOTAL_DOTS).foldl (ppaStep now) (st.dotStates, false)).1 }

/-- `update()`: the periodic entry point, pumps `processPendingActions`. -/
def update (st : BrailleDisplay) (now : Nat) : BrailleDisplay :=
  processPendingActions st now

/-- `enable()`: set the flag and refresh. -/
def enable (st : BrailleDisplay) (now : Nat) : BrailleDisplay :=
  refresh { st with displayEnabled := true } now

/-- `disable()`: clear the flag; dot state is untouched. -/
def disable (st : BrailleDisplay) : BrailleDisplay :=
  { st with displayEnabled := false }

/-- The `BrailleDisplay` constructor: everything blank and retracted,
the output buffer cleared. -/
def initialDisplay : BrailleDisplay where
  cells := fun _ =>
    { pattern := 0, currentState := 0, isActive := false,
      updateTime := 0, needsUpdate := false }
  dotStates := fun _ =>
    { targetState := false, currentState := false,
      actionTime := 0, actionPending := false }
  shiftRegisterData := clearShiftRegisters
  displayEnabled := false
  lastUpdateTime := 0

/-! ## Encoder -/

/-- `charToBraille(c)` on the ASCII code of `c`: letters (case folded),
digits, a fixed punctuation set; anything else is blank. -/
def charToBraille (c : Nat) : Nat :=
  if 97 ≤ c ∧ c ≤ 122 then BRAILLE_ALPHABET.getD (c - 97) 0
  else if 65 ≤ c ∧ c ≤ 90 then BRAILLE_ALPHABET.getD (c - 65) 0
  else if 48 ≤ c ∧ c ≤ 57 then BRAILLE_NUMBERS.getD (c - 48) 0
  else if c = 32 then BRAILLE_SPACE
  else if c = 33 then BRAILLE_PUNCTUATION.getD 1 0
  else if c = 39 then BRAILLE_PUNCTUATION.getD 2 0
  else if c = 45 then BRAILLE_PUNCTUATION.getD 3 0
  else if c = 46 then BRAILLE_PUNCTUATION.getD 4 0
  else if c = 44 then BRAILLE_PUNCTUATION.getD 5 0
  else if c = 63 then BRAILLE_PUNCTUATION.getD 6 0
  else if c = 59 then BRAILLE_PUNCTUATION.getD 7 0
  else if c = 58 then BRAILLE_PUNCTUATION.getD 8 0
  else 0

/-! ## Display controller: cell operations -/

/-- Lines 175-178 of `setCellPattern`: store the masked pattern, the
activity flag (computed from the unmasked argument), the timestamp and the
update flag into the cell record. -/
def setCellPatternCellsPre (st : BrailleDisplay) (cellIndex pattern now : Nat) :
    BrailleDisplay :=
  let c : BrailleCell :=
    { pattern := pattern &&& 0x3F,
      currentState := (st.cells cellIndex).currentState,
      isActive := pattern != 0, updateTime := now, needsUpdate := true }
  { st with cells := Function.update st.cells cellIndex c }

/-- Lines 181-185 of `setCellPattern`: the per-dot loop scheduling a
deferred `setDotState` for each of the cell's six dots. -/
def setCellDots (st : BrailleDisplay) (cellIndex pattern now : Nat) :
    BrailleDisplay :=
  (List.range DOTS_PER_CELL).foldl
    (fun s dot =>
      setDotState s (cellIndex * DOTS_PER_CELL + dot)
        (pattern &&& (1 <<< dot) != 0) false now) st

/-- Line 188 of `setCellPattern`: `cells[cellIndex].currentState = pattern`
(the unmasked argument). -/
def setCellPatternTrack (st : BrailleDisplay) (cellIndex pattern : Nat) :
    BrailleDisplay :=
  let c : BrailleCell := { st.cells cellIndex with currentState := pattern }
  { st with cells := Function.update st.cells cellIndex c }

/-- The full state change of a valid `setCellPattern` call before the
enabled-path `processPendingActions`. -/
def setCellPatternCore (st : BrailleDisplay) (cellIndex pattern now : Nat) :
    BrailleDisplay :=
  setCellPatternTrack
    (setCellDots (setCellPatternCellsPre st cellIndex pattern now)
      cellIndex pattern now)
    cellIndex pattern

/-- `setCellPattern(cellIndex, pattern)` at clock value `now`.
`pattern` is a `uint8_t` in the source (value below 256). -/
def setCellPattern (st : BrailleDisplay) (cellIndex pattern now : Nat) :
    BrailleDisplay :=
  if ¬ isValidBrailleCell cellIndex then st
  else if (setCellPatternCore st cellIndex pattern now).displayEnabled then
    processPendingActions (setCellPatternCore st cellIndex pattern now) now
  else setCellPatternCore st cellIndex pattern now

/-- `getCellPattern(cellIndex)`. -/
def getCellPattern (st : BrailleDisplay) (cellIndex : Nat) : Nat :=
  if ¬ isValidBrailleCell cellIndex then 0
  else (st.cells cellIndex).pattern

/-- `getCurrentCellState(cellIndex)`. -/
def getCurrentCellState (st : BrailleDisplay) (cellIndex : Nat) : Nat :=
  if ¬ isValidBrailleCell cellIndex then 0
  else (st.cells cellIndex).currentState

/-- `displayChar(c, cellIndex)` at clock value `now`. -/
def displayChar (st : BrailleDisplay) (c cellIndex now : Nat) :
    BrailleDisplay :=
  if ¬ isValidBrailleCell cellIndex then st
  else setCellPattern st cellIndex (charToBraille c) now

/-- `clearDisplay()` at clock value `now`: blank every cell, schedule a
deferred retract of every dot, zero the output buffer, refresh if enabled. -/
def clearDisplay (st : BrailleDisplay) (now : Nat) : BrailleDisplay :=
  let cells1 := (List.range NUM_BRAILLE_CELLS).foldl
    (fun cs i => Function.update cs i
      { pattern := 0, currentState := 0, isActive := false,
        updateTime := now, needsUpdate := true }) st.cells
  let st1 := { st with cells := cells1 }
  let st2 := (List.range TOTAL_DOTS).foldl
    (fun s i => setDotState s i false false now) st1
  let st3 := { st2 with shiftRegisterData := clearShiftRegisters }
  if st3.displayEnabled then refresh st3 now else st3

/-! ## Display controller: the displayText loop

`displayText(text, startCell)` walks the text once, left to right, writing
patterns into consecutive cells through `setCellPattern`.  The loop below
is that while loop with the written patterns recorded in order in
`emitted`: the k-th entry of `emitted` is the pattern passed to
`setCellPattern` at cell `startCell + k`, and `cellIndex` is the loop's
cursor. -/

/-- The mutable locals of the `displayText` loop, with the sequence of
patterns handed to `setCellPattern` recorded in `emitted`. -/
structure TextLoopState where
  emitted : List Nat
  cellIndex : Nat
  numberMode : Bool
deriving DecidableEq

/-- ASCII test `c >= '0' && c <= '9'`. -/
def isDigitCh (c : Nat) : Bool := 48 ≤ c && c ≤ 57

/-- ASCII test `c >= 'A' && c <= 'Z'`. -/
def isUpperCh (c : Nat) : Bool := 65 ≤ c && c ≤ 90

/-- ASCII test `c >= 'a' && c <= 'z'`. -/
def isLowerCh (c : Nat) : Bool := 97 ≤ c && c ≤ 122

/-- One iteration of the `displayText` loop body on character `c`. -/
def displayTextStep (s : TextLoopState) (c : Nat) : TextLoopState :=
  if isDigitCh c then
    let s1 :=
      if !s.numberMode then
        if s.cellIndex < NUM_BRAILLE_CELLS then
          { emitted := s.emitted ++ [BRAILLE_NUMBER_SIGN],
            cellIndex := s.cellIndex + 1, numberMode := true }
        else s
      else s
    if s1.cellIndex < NUM_BRAILLE_CELLS then
      { s1 with emitted := s1.emitted ++ [BRAILLE_NUMBERS.getD (c - 48) 0],
                cellIndex := s1.cellIndex + 1 }
    else s1
  else if isUpperCh c then
    let s1 := { s with numberMode := false }
    let s2 :=
      if s1.cellIndex < NUM_BRAILLE_CELLS then
        { s1 with emitted := s1.emitted ++ [BRAILLE_CAPITAL_SIGN],
                  cellIndex := s1.cellIndex + 1 }
      else s1
    if s2.cellIndex < NUM_BRAILLE_CELLS then
      { s2 with emitted := s2.emitted ++ [BRAILLE_ALPHABET.getD (c - 65) 0],
                cellIndex := s2.cellIndex + 1 }
    else s2
  else if isLowerCh c then
    let s1 := { s with numberMode := false }
    if s1.cellIndex < NUM_BRAILLE_CELLS then
      { s1 with emitted := s1.emitted ++ [BRAILLE_ALPHABET.getD (c - 97) 0],
                cellIndex := s1.cellIndex + 1 }
    else s1
  else if c = 32 then
    let s1 := { s with numberMode := false }
    if s1.cellIndex < NUM_BRAILLE_CELLS then
      { s1 with emitted := s1.emitted ++ [BRAILLE_SPACE],
                cellIndex := s1.cellIndex + 1 }
    else s1
  else
    let s1 := { s with numberMode := false }
    if s1.cellIndex < NUM_BRAILLE_CELLS then
      { s1 with emitted := s1.emitted ++ [charToBraille c],
                cellIndex := s1.cellIndex + 1 }
    else s1

/-- The `displayText` while loop
(`while (text[textIndex] != 0 && cellIndex < NUM_BRAILLE_CELLS)`). -/
def displayTextLoop : List Nat → TextLoopState → TextLoopState
  | [], s => s
  | c :: rest, s =>
    if s.cellIndex < NUM_BRAILLE_CELLS then
      displayTextLoop rest (displayTextStep s c)
    else s

/-- The sequence of cell patterns `displayText(text, startCell)` writes,
in cell order starting at `startCell`; `[]` when `startCell` is out of
range (the guard at the top of `displayText`). -/
def displayTextEmitted (text : List Nat) (startCell : Nat) : List Nat :=
  if startCell ≥ NUM_BRAILLE_CELLS then []
  else
    (displayTextLoop text
      { emitted := [], cellIndex := startCell, numberMode := false }).emitted

/-- Modelled from the spec: the reference encoder of §4.1 `encodeText`,
stateful only in number mode ("On entering a run of digits (previous char
not a digit), emit a NUMBER-SIGN cell before the first digit of the run.
Each uppercase letter is preceded by its own CAPITAL-SIGN cell"); written
from the spec's words, to be compared with `displayTextLoop`. -/
def specEncodeText : List Nat → Bool → List Nat
  | [], _ => []
  | c :: rest, numberMode =>
    if isDigitCh c then
      (if numberMode then [] else [BRAILLE_NUMBER_SIGN]) ++
        BRAILLE_NUMBERS.getD (c - 48) 0 :: specEncodeText rest true
    else if isUpperCh c then
      BRAILLE_CAPITAL_SIGN :: BRAILLE_ALPHABET.getD (c - 65) 0 ::
        specEncodeText rest false
    else if isLowerCh c then
      BRAILLE_ALPHABET.getD (c - 97) 0 :: specEncodeText rest false
    else if c = 32 then
      BRAILLE_SPACE :: specEncodeText rest false
    else
      charToBraille c :: specEncodeText rest false

/-! ## Helper lemmas: bytes and single output bits -/

lemma testBit_byte_255 {j : Nat} (hj : j < 8) : Nat.testBit 255 j = true := by
  have h : (255 : Nat) = 2 ^ 8 - 1 := by norm_num
  rw [h, Nat.testBit_two_pow_sub_one]
  simpa using hj

lemma testBit_or_pow_self (v b : Nat) : (v ||| 1 <<< b).testBit b = true := by
  simp [Nat.one_shiftLeft, Nat.testBit_two_pow_self]

lemma testBit_or_pow_ne (v : Nat) {b j : Nat} (h : j ≠ b) :
    (v ||| 1 <<< b).testBit j = v.testBit j := by
  simp [Nat.one_shiftLeft, Nat.testBit_two_pow_of_ne (Ne.symm h)]

lemma testBit_and_mask_self (v : Nat) {b : Nat} (hb : b < 8) :
    (v &&& (255 ^^^ 1 <<< b)).testBit b = false := by
  simp [Nat.one_shiftLeft, Nat.testBit_two_pow_self, testBit_byte_255 hb]

lemma testBit_and_mask_ne (v : Nat) {b j : Nat} (hj : j < 8) (h : j ≠ b) :
    (v &&& (255 ^^^ 1 <<< b)).testBit j = v.testBit j := by
  simp [Nat.one_shiftLeft, Nat.testBit_two_pow_of_ne (Ne.symm h),
        testBit_byte_255 hj]

lemma length_setShiftRegisterBit (sr : List Nat) (o : Nat) (s : Bool) :
    (setShiftRegisterBit sr o s).length = sr.length := by
  unfold setShiftRegisterBit
  split
  · rfl
  split
  · split <;> simp
  · rfl

lemma srBit_setShiftRegisterBit_self (sr : List Nat) {o : Nat} (s : Bool)
    (ho : o < TOTAL_OUTPUTS) (hlen : sr.length = NUM_SHIFT_REGISTERS) :
    srBit (setShiftRegisterBit sr o s) o = s := by
  have hreg : o / 8 < NUM_SHIFT_REGISTERS := by
    have h120 : o < 120 := by
      simpa [TOTAL_OUTPUTS, TOTAL_DOTS, OUTPUTS_PER_DOT,
        NUM_BRAILLE_CELLS, DOTS_PER_CELL] using ho
    simp only [NUM_SHIFT_REGISTERS, TOTAL_OUTPUTS, TOTAL_DOTS,
      OUTPUTS_PER_DOT, NUM_BRAILLE_CELLS, DOTS_PER_CELL]
    omega
  have hlt : o / 8 < sr.length := by rw [hlen]; exact hreg
  have hnot : ¬ o ≥ TOTAL_OUTPUTS := not_le.mpr ho
  unfold setShiftRegisterBit srBit
  rw [if_neg hnot, if_pos hreg]
  cases s with
  | true =>
      rw [if_pos rfl]
      simp only [List.getD_eq_getElem?_getD, List.getElem?_set_self hlt,
        Option.getD_some]
      exact testBit_or_pow_self _ _
  | false =>
      rw [if_neg (by simp)]
      simp only [List.getD_eq_getElem?_getD, List.getElem?_set_self hlt,
        Option.getD_some]
      exact testBit_and_mask_self _ (Nat.mod_lt o (by norm_num))

lemma srBit_setShiftRegisterBit_ne (sr : List Nat) {o o' : Nat} (s : Bool)
    (h : o' ≠ o) :
    srBit (setShiftRegisterBit sr o s) o' = srBit sr o' := by
  unfold setShiftRegisterBit srBit
  split
  · rfl
  split
  · by_cases hreg : o' / 8 = o / 8
    · have hbit : o' % 8 ≠ o % 8 := by
        intro hb
        exact h (by omega)
      have hb8 : o' % 8 < 8 := Nat.mod_lt o' (by norm_num)
      by_cases hl : o / 8 < sr.length
      · cases s with
        | true =>
            rw [if_pos rfl, hreg]
            simp only [List.getD_eq_getElem?_getD,
              List.getElem?_set_self hl, Option.getD_some]
            rw [← hreg]
            exact testBit_or_pow_ne _ hbit
        | false =>
            rw [if_neg (by simp), hreg]
            simp only [List.getD_eq_getElem?_getD,
              List.getElem?_set_self hl, Option.getD_some]
            rw [← hreg]
            exact testBit_and_mask_ne _ hb8 hbit
      · have hset : ∀ v : Nat, sr.set (o / 8) v = sr :=
          fun v => List.set_eq_of_length_le (Nat.le_of_not_lt hl)
        split <;> rw [hset]
    · have hgd : ∀ v : Nat, (sr.set (o / 8) v).getD (o' / 8) 0 =
          sr.getD (o' / 8) 0 := by
        intro v
        simp only [List.getD_eq_getElem?_getD,
          List.getElem?_set_ne (fun hh => hreg hh.symm)]
      split <;> rw [hgd]
  · rfl

/-! ## Helper lemmas: the serializer rebuild loop -/

lemma getDotOutputIndex_up (i : Nat) :
    getDotOutputIndex i DOT_DIRECTION_UP = 2 * i := by
  simp only [getDotOutputIndex, OUTPUTS_PER_DOT, DOT_DIRECTION_UP]
  omega

lemma getDotOutputIndex_down (i : Nat) :
    getDotOutputIndex i DOT_DIRECTION_DOWN = 2 * i + 1 := by
  simp only [getDotOutputIndex, OUTPUTS_PER_DOT, DOT_DIRECTION_DOWN]
  omega

lemma length_updateDotOutputs (ds : Nat → DotState) (sr : List Nat) (i : Nat) :
    (updateDotOutputs ds sr i).length = sr.length := by
  unfold updateDotOutputs
  split <;> simp [length_setShiftRegisterBit]

lemma length_usr_foldl (ds : Nat → DotState) :
    ∀ (l : List Nat) (sr : List Nat),
      (l.foldl (updateDotOutputs ds) sr).length = sr.length
  | [], _ => rfl
  | i :: l, sr => by
      rw [List.foldl_cons, length_usr_foldl ds l, length_updateDotOutputs]

lemma srBit_updateDotOutputs_ne (ds : Nat → DotState) (sr : List Nat)
    {i o : Nat} (h1 : o ≠ 2 * i) (h2 : o ≠ 2 * i + 1) :
    srBit (updateDotOutputs ds sr i) o = srBit sr o := by
  unfold updateDotOutputs
  rw [getDotOutputIndex_up, getDotOutputIndex_down]
  split <;>
    rw [srBit_setShiftRegisterBit_ne _ _ h2, srBit_setShiftRegisterBit_ne _ _ h1]

lemma srBit_updateDotOutputs_self (ds : Nat → DotState) (sr : List Nat)
    {i : Nat} (hi : i < TOTAL_DOTS) (hlen : sr.length = NUM_SHIFT_REGISTERS) :
    srBit (updateDotOutputs ds sr i) (2 * i) = (ds i).currentState
    ∧ srBit (updateDotOutputs ds sr i) (2 * i + 1) = !(ds i).currentState := by
  have hi60 : i < 60 := by
    simpa [TOTAL_DOTS, NUM_BRAILLE_CELLS, DOTS_PER_CELL] using hi
  have hup : 2 * i < TOTAL_OUTPUTS := by
    simp only [TOTAL_OUTPUTS, TOTAL_DOTS, OUTPUTS_PER_DOT,
      NUM_BRAILLE_CELLS, DOTS_PER_CELL]
    omega
  have hdown : 2 * i + 1 < TOTAL_OUTPUTS := by
    simp only [TOTAL_OUTPUTS, TOTAL_DOTS, OUTPUTS_PER_DOT,
      NUM_BRAILLE_CELLS, DOTS_PER_CELL]
    omega
  unfold updateDotOutputs
  rw [getDotOutputIndex_up, getDotOutputIndex_down]
  split
  next hcs =>
    rw [hcs]
    constructor
    · rw [srBit_setShiftRegisterBit_ne _ _ (by omega)]
      exact srBit_setShiftRegisterBit_self sr _ hup hlen
    · rw [srBit_setShiftRegisterBit_self _ _ hdown
        (by rw [length_setShiftRegisterBit, hlen])]
      rfl
  next hcs =>
    rw [Bool.not_eq_true] at hcs
    rw [hcs]
    constructor
    · rw [srBit_setShiftRegisterBit_ne _ _ (by omega)]
      exact srBit_setShiftRegisterBit_self sr _ hup hlen
    · rw [srBit_setShiftRegisterBit_self _ _ hdown
        (by rw [length_setShiftRegisterBit, hlen])]
      rfl

lemma srBit_usr_fold (ds : Nat → DotState) :
    ∀ n, n ≤ TOTAL_DOTS → ∀ d, d < n →
      srBit ((List.range n).foldl (updateDotOutputs ds) clearShiftRegisters)
        (2 * d) = (ds d).currentState
      ∧ srBit ((List.range n).foldl (updateDotOutputs ds) clearShiftRegisters)
        (2 * d + 1) = !(ds d).currentState := by
  intro n
  induction n with
  | zero => intro _ d hd; omega
  | succ n ih =>
      intro hn d hd
      rw [List.range_succ, List.foldl_append, List.foldl_cons, List.foldl_nil]
      have hlen : ((List.range n).foldl (updateDotOutputs ds)
          clearShiftRegisters).length = NUM_SHIFT_REGISTERS := by
        rw [length_usr_foldl]
        simp [clearShiftRegisters]
      by_cases hdn : d = n
      · subst hdn
        exact srBit_updateDotOutputs_self ds _ (Nat.lt_of_lt_of_le hd hn) hlen
      · have hd' : d < n := by omega
        have h1 := ih (by omega) d hd'
        constructor
        · rw [srBit_updateDotOutputs_ne ds _ (by omega) (by omega)]
          exact h1.1
        · rw [srBit_updateDotOutputs_ne ds _ (by omega) (by omega)]
          exact h1.2

/-! ## Helper lemmas: refresh and the scheduler loops -/

lemma refresh_dotStates (st : BrailleDisplay) (now : Nat) :
    (refresh st now).dotStates = st.dotStates := by
  unfold refresh
  split <;> rfl

lemma refresh_cells (st : BrailleDisplay) (now : Nat) :
    (refresh st now).cells = st.cells := by
  unfold refresh
  split <;> rfl

lemma refresh_enabled (st : BrailleDisplay) (now : Nat) :
    (refresh st now).displayEnabled = st.displayEnabled := by
  unfold refresh
  split <;> rfl

lemma ppaStep_fst (now : Nat) (acc : (Nat → DotState) × Bool) (i j : Nat) :
    (ppaStep now acc i).1 j =
      if j = i ∧ (acc.1 i).actionPending = true
          ∧ (acc.1 i).actionTime ≤ now then
        { acc.1 i with currentState := (acc.1 i).targetState,
                       actionPending := false }
      else acc.1 j := by
  unfold ppaStep
  by_cases hc : (acc.1 i).actionPending = true ∧ (acc.1 i).actionTime ≤ now
  · rw [if_pos hc]
    dsimp only
    by_cases hj : j = i
    · subst hj
      rw [Function.update_same, if_pos ⟨rfl, hc⟩]
    · rw [Function.update_noteq hj, if_neg (fun h => hj h.1)]
  · rw [if_neg hc, if_neg (fun h => hc h.2)]

lemma ppa_foldl_fst (now : Nat) (ds : Nat → DotState) (b : Bool) :
    ∀ n j, ((List.range n).foldl (ppaStep now) (ds, b)).1 j =
      if j < n ∧ (ds j).actionPending = true ∧ (ds j).actionTime ≤ now then
        { ds j with currentState := (ds j).targetState,
                    actionPending := false }
      else ds j := by
  intro n
  induction n with
  | zero => intro j; simp
  | succ n ih =>
      intro j
      rw [List.range_succ, List.foldl_append, List.foldl_cons, List.foldl_nil]
      rw [ppaStep_fst]
      have hrn : ((List.range n).foldl (ppaStep now) (ds, b)).1 n = ds n := by
        rw [ih n]
        simp
      rw [hrn]
      by_cases hj : j = n
      · subst hj
        by_cases hc : (ds j).actionPending = true ∧ (ds j).actionTime ≤ now
        · rw [if_pos ⟨rfl, hc⟩, if_pos ⟨Nat.lt_succ_self j, hc⟩]
        · rw [if_neg (fun h => hc h.2), ih j, if_neg (by omega),
            if_neg (fun h => hc h.2)]
      · rw [if_neg (fun h => hj h.1), ih j]
        have hiff : (j < n + 1 ∧ (ds j).actionPending = true
            ∧ (ds j).actionTime ≤ now) ↔ (j < n ∧ (ds j).actionPending = true
            ∧ (ds j).actionTime ≤ now) := by
          constructor
          · rintro ⟨h1, h2⟩
            exact ⟨by omega, h2⟩
          · rintro ⟨h1, h2⟩
            exact ⟨by omega, h2⟩
        simp only [hiff]

set_option maxRecDepth 4096 in
lemma processPendingActions_dotStates (st : BrailleDisplay) (now j : Nat) :
    (processPendingActions st now).dotStates j =
      if j < TOTAL_DOTS ∧ (st.dotStates j).actionPending = true
          ∧ (st.dotStates j).actionTime ≤ now then
        { st.dotStates j with currentState := (st.dotStates j).targetState,
                              actionPending := false }
      else st.dotStates j := by
  unfold processPendingActions
  by_cases h2 : ((List.range TOTAL_DOTS).foldl (ppaStep now)
      (st.dotStates, false)).2 = true
  · rw [if_pos h2, refresh_dotStates]
    exact ppa_foldl_fst now st.dotStates false TOTAL_DOTS j
  · rw [if_neg h2]
    exact ppa_foldl_fst now st.dotStates false TOTAL_DOTS j

set_option maxRecDepth 4096 in
lemma processPendingActions_cells (st : BrailleDisplay) (now : Nat) :
    (processPendingActions st now).cells = st.cells := by
  unfold processPendingActions
  by_cases h2 : ((List.range TOTAL_DOTS).foldl (ppaStep now)
      (st.dotStates, false)).2 = true
  · rw [if_pos h2, refresh_cells]
  · rw [if_neg h2]

set_option maxRecDepth 4096 in
lemma processPendingActions_enabled (st : BrailleDisplay) (now : Nat) :
    (processPendingActions st now).displayEnabled = st.displayEnabled := by
  unfold processPendingActions
  by_cases h2 : ((List.range TOTAL_DOTS).foldl (ppaStep now)
      (st.dotStates, false)).2 = true
  · rw [if_pos h2, refresh_enabled]
  · rw [if_neg h2]

/-! ## Helper lemmas: deferred setDotState -/

lemma setDotState_deferred_fields (st : BrailleDisplay) (i : Nat) (b : Bool)
    (now : Nat) :
    (setDotState st i b false now).cells = st.cells
    ∧ (setDotState st i b false now).displayEnabled = st.displayEnabled
    ∧ (setDotState st i b false now).shiftRegisterData
        = st.shiftRegisterData := by
  unfold setDotState
  split
  · exact ⟨rfl, rfl, rfl⟩
  · exact ⟨rfl, rfl, rfl⟩

lemma setDotState_deferred_dotStates_ne (st : BrailleDisplay) (i : Nat)
    (b : Bool) (now : Nat) {j : Nat} (hj : j ≠ i) :
    (setDotState st i b false now).dotStates j = st.dotStates j := by
  unfold setDotState
  split
  · rfl
  · exact Function.update_noteq hj _ _

lemma setDotState_deferred_dotStates_self (st : BrailleDisplay) {i : Nat}
    (b : Bool) (now : Nat) (hi : i < TOTAL_DOTS) :
    (setDotState st i b false now).dotStates i =
      { targetState := b, currentState := (st.dotStates i).currentState,
        actionTime := now + ACTUATOR_SETTLE_TIME, actionPending := true } := by
  unfold setDotState
  rw [if_neg (not_le.mpr hi)]
  exact Function.update_same _ _ _

/-! ## Helper lemmas: the setCellPattern stages -/

lemma foldl_setDotState_fields (now : Nat) (f : Nat → Nat) (g : Nat → Bool) :
    ∀ (l : List Nat) (st : BrailleDisplay),
      ((l.foldl (fun s dot => setDotState s (f dot) (g dot) false now) st).cells
          = st.cells)
      ∧ ((l.foldl (fun s dot => setDotState s (f dot) (g dot) false now)
            st).displayEnabled = st.displayEnabled)
      ∧ ((l.foldl (fun s dot => setDotState s (f dot) (g dot) false now)
            st).shiftRegisterData = st.shiftRegisterData)
  | [], _ => ⟨rfl, rfl, rfl⟩
  | i :: l, st => by
      rw [List.foldl_cons]
      have h1 := setDotState_deferred_fields st (f i) (g i) now
      have h2 := foldl_setDotState_fields now f g l
        (setDotState st (f i) (g i) false now)
      exact ⟨h2.1.trans h1.1, h2.2.1.trans h1.2.1, h2.2.2.trans h1.2.2⟩

lemma setCellDots_cells (st : BrailleDisplay) (ci p now : Nat) :
    (setCellDots st ci p now).cells = st.cells :=
  (foldl_setDotState_fields now (fun dot => ci * DOTS_PER_CELL + dot)
    (fun dot => p &&& (1 <<< dot) != 0) (List.range DOTS_PER_CELL) st).1

lemma setCellDots_enabled (st : BrailleDisplay) (ci p now : Nat) :
    (setCellDots st ci p now).displayEnabled = st.displayEnabled :=
  (foldl_setDotState_fields now (fun dot => ci * DOTS_PER_CELL + dot)
    (fun dot => p &&& (1 <<< dot) != 0) (List.range DOTS_PER_CELL) st).2.1

lemma setCellDots_fold_dotStates_ne (st : BrailleDisplay) (ci p now : Nat)
    {j : Nat} :
    ∀ n, (∀ d, d < n → j ≠ ci * DOTS_PER_CELL + d) →
      (((List.range n).foldl
        (fun s dot => setDotState s (ci * DOTS_PER_CELL + dot)
          (p &&& (1 <<< dot) != 0) false now) st).dotStates j
        = st.dotStates j) := by
  intro n
  induction n with
  | zero => intro _; rfl
  | succ n ih =>
      intro hj
      rw [List.range_succ, List.foldl_append, List.foldl_cons, List.foldl_nil]
      rw [setDotState_deferred_dotStates_ne _ _ _ _ (hj n (Nat.lt_succ_self n))]
      exact ih (fun d hd => hj d (Nat.lt_succ_of_lt hd))

lemma setCellDots_dotStates_ne (st : BrailleDisplay) (ci p now : Nat)
    {j : Nat} (hj : ∀ d, d < DOTS_PER_CELL → j ≠ ci * DOTS_PER_CELL + d) :
    (setCellDots st ci p now).dotStates j = st.dotStates j :=
  setCellDots_fold_dotStates_ne st ci p now DOTS_PER_CELL hj

lemma setCellDots_fold_dotStates_self (st : BrailleDisplay) {ci : Nat}
    (p now : Nat) (hci : ci < NUM_BRAILLE_CELLS) :
    ∀ n, n ≤ DOTS_PER_CELL → ∀ d, d < n →
      (((List.range n).foldl
        (fun s dot => setDotState s (ci * DOTS_PER_CELL + dot)
          (p &&& (1 <<< dot) != 0) false now) st).dotStates
            (ci * DOTS_PER_CELL + d)
        = { targetState := p &&& (1 <<< d) != 0,
            currentState :=
              (st.dotStates (ci * DOTS_PER_CELL + d)).currentState,
            actionTime := now + ACTUATOR_SETTLE_TIME,
            actionPending := true }) := by
  have hci10 : ci < 10 := by
    simpa [NUM_BRAILLE_CELLS] using hci
  intro n
  induction n with
  | zero => intro _ d hd; omega
  | succ n ih =>
      intro hn d hd
      have hn6 : n ≤ 6 := by
        simpa [DOTS_PER_CELL] using Nat.le_of_succ_le hn
      rw [List.range_succ, List.foldl_append, List.foldl_cons, List.foldl_nil]
      by_cases hdn : d = n
      · subst hdn
        have hd6 : d < 6 := by
          simp only [DOTS_PER_CELL] at hn
          omega
        have hidx : ci * DOTS_PER_CELL + d < TOTAL_DOTS := by
          simp only [DOTS_PER_CELL, TOTAL_DOTS, NUM_BRAILLE_CELLS]
          omega
        rw [setDotState_deferred_dotStates_self _ _ _ hidx]
        rw [setCellDots_fold_dotStates_ne st ci p now d
          (fun e he hcontra => by
            have he' : e = d := by
              simp only [DOTS_PER_CELL] at hcontra
              omega
            omega)]
      · have hd' : d < n := by omega
        have hne : ci * DOTS_PER_CELL + d ≠ ci * DOTS_PER_CELL + n := by
          simp only [DOTS_PER_CELL]
          omega
        rw [setDotState_deferred_dotStates_ne _ _ _ _ hne]
        exact ih (Nat.le_of_succ_le hn) d hd'

lemma setCellDots_dotStates_self (st : BrailleDisplay) {ci d : Nat}
    (p now : Nat) (hci : ci < NUM_BRAILLE_CELLS) (hd : d < DOTS_PER_CELL) :
    (setCellDots st ci p now).dotStates (ci * DOTS_PER_CELL + d) =
      { targetState := p &&& (1 <<< d) != 0,
        currentState := (st.dotStates (ci * DOTS_PER_CELL + d)).currentState,
        actionTime := now + ACTUATOR_SETTLE_TIME, actionPending := true } :=
  setCellDots_fold_dotStates_self st p now hci DOTS_PER_CELL le_rfl d hd

lemma setCellPatternCore_cells_self (st : BrailleDisplay) {i : Nat}
    (p now : Nat) :
    (setCellPatternCore st i p now).cells i =
      { pattern := p &&& 0x3F, currentState := p, isActive := p != 0,
        updateTime := now, needsUpdate := true } := by
  unfold setCellPatternCore setCellPatternTrack
  dsimp only
  rw [Function.update_same, setCellDots_cells]
  unfold setCellPatternCellsPre
  dsimp only
  rw [Function.update_same]

lemma setCellPatternCore_cells_ne (st : BrailleDisplay) {i j : Nat}
    (p now : Nat) (hj : j ≠ i) :
    (setCellPatternCore st i p now).cells j = st.cells j := by
  unfold setCellPatternCore setCellPatternTrack
  dsimp only
  rw [Function.update_noteq hj, setCellDots_cells]
  unfold setCellPatternCellsPre
  dsimp only
  rw [Function.update_noteq hj]

lemma setCellPatternCore_enabled (st : BrailleDisplay) (i p now : Nat) :
    (setCellPatternCore st i p now).displayEnabled = st.displayEnabled := by
  unfold setCellPatternCore setCellPatternTrack
  dsimp only
  rw [setCellDots_enabled]
  rfl

lemma setCellPatternCellsPre_dotStates (st : BrailleDisplay)
    (i p now : Nat) :
    (setCellPatternCellsPre st i p now).dotStates = st.dotStates := rfl

lemma setCellPatternCore_dotStates (st : BrailleDisplay) (i p now : Nat) :
    (setCellPatternCore st i p now).dotStates =
      (setCellDots (setCellPatternCellsPre st i p now) i p now).dotStates := by
  unfold setCellPatternCore setCellPatternTrack
  rfl

lemma setCellPatternCore_dotStates_self (st : BrailleDisplay) {i d : Nat}
    (p now : Nat) (hi : i < NUM_BRAILLE_CELLS) (hd : d < DOTS_PER_CELL) :
    (setCellPatternCore st i p now).dotStates (i * DOTS_PER_CELL + d) =
      { targetState := p &&& (1 <<< d) != 0,
        currentState := (st.dotStates (i * DOTS_PER_CELL + d)).currentState,
        actionTime := now + ACTUATOR_SETTLE_TIME, actionPending := true } := by
  rw [setCellPatternCore_dotStates st i p now]
  rw [setCellDots_dotStates_self _ p now hi hd,
    setCellPatternCellsPre_dotStates]

lemma isValidBrailleCell_true {i : Nat} (hi : i < NUM_BRAILLE_CELLS) :
    isValidBrailleCell i = true := by
  simp only [isValidBrailleCell, decide_eq_true_eq]
  exact hi

lemma setCellPattern_cells_self (st : BrailleDisplay) {i : Nat} (p now : Nat)
    (hi : i < NUM_BRAILLE_CELLS) :
    (setCellPattern st i p now).cells i =
      { pattern := p &&& 0x3F, currentState := p, isActive := p != 0,
        updateTime := now, needsUpdate := true } := by
  unfold setCellPattern
  rw [if_neg (not_not_intro (isValidBrailleCell_true hi))]
  by_cases he : (setCellPatternCore st i p now).displayEnabled = true
  · rw [if_pos he]
    rw [congrFun (processPendingActions_cells _ now) i]
    exact setCellPatternCore_cells_self st p now
  · rw [if_neg he]
    exact setCellPatternCore_cells_self st p now

lemma setCellPattern_cells_ne (st : BrailleDisplay) {i j : Nat} (p now : Nat)
    (hj : j ≠ i) :
    (setCellPattern st i p now).cells j = st.cells j := by
  unfold setCellPattern
  by_cases hv : isValidBrailleCell i = true
  · rw [if_neg (not_not_intro hv)]
    by_cases he : (setCellPatternCore st i p now).displayEnabled = true
    · rw [if_pos he]
      rw [congrFun (processPendingActions_cells _ now) j]
      exact setCellPatternCore_cells_ne st p now hj
    · rw [if_neg he]
      exact setCellPatternCore_cells_ne st p now hj
  · rw [if_pos hv]

lemma setCellPattern_dotStates_self (st : BrailleDisplay) {i d : Nat}
    (p now : Nat) (hi : i < NUM_BRAILLE_CELLS) (hd : d < DOTS_PER_CELL) :
    (setCellPattern st i p now).dotStates (i * DOTS_PER_CELL + d) =
      { targetState := p &&& (1 <<< d) != 0,
        currentState := (st.dotStates (i * DOTS_PER_CELL + d)).currentState,
        actionTime := now + ACTUATOR_SETTLE_TIME, actionPending := true } := by
  unfold setCellPattern
  rw [if_neg (not_not_intro (isValidBrailleCell_true hi))]
  by_cases he : (setCellPatternCore st i p now).displayEnabled = true
  · rw [if_pos he, processPendingActions_dotStates]
    rw [setCellPatternCore_dotStates_self st p now hi hd]
    rw [if_neg (fun h => by
      have h3 : now + ACTUATOR_SETTLE_TIME ≤ now := h.2.2
      simp only [ACTUATOR_SETTLE_TIME] at h3
      omega)]
  · rw [if_neg he]
    exact setCellPatternCore_dotStates_self st p now hi hd

/-! ## Helper lemmas: the displayText loop -/

lemma displayTextLoop_emitted_eq_spec :
    ∀ (text : List Nat) (ci : Nat) (nm : Bool) (em : List Nat),
      ci + (specEncodeText text nm).length ≤ NUM_BRAILLE_CELLS →
      (displayTextLoop text ⟨em, ci, nm⟩).emitted
        = em ++ specEncodeText text nm := by
  intro text
  induction text with
  | nil =>
      intro ci nm em _
      simp [displayTextLoop, specEncodeText]
  | cons c rest ih =>
      intro ci nm em h
      simp only [specEncodeText] at h ⊢
      simp only [displayTextLoop, displayTextStep]
      by_cases hd : isDigitCh c = true
      · simp only [hd, if_true] at h ⊢
        cases nm with
        | true =>
            simp only [Bool.not_true, Bool.false_eq_true, if_false, if_true,
              List.nil_append, List.length_cons] at h ⊢
            have hci : ci < NUM_BRAILLE_CELLS := by omega
            simp only [if_pos hci]
            rw [ih (ci + 1) true (em ++ [BRAILLE_NUMBERS.getD (c - 48) 0])
              (by omega)]
            simp
        | false =>
            simp only [Bool.not_false, Bool.false_eq_true, if_false, if_true,
              List.cons_append, List.nil_append, List.length_cons] at h ⊢
            have hci : ci < NUM_BRAILLE_CELLS := by omega
            have hci1 : ci + 1 < NUM_BRAILLE_CELLS := by omega
            simp only [if_pos hci, if_pos hci1]
            rw [ih (ci + 1 + 1) true
              ((em ++ [BRAILLE_NUMBER_SIGN]) ++
                [BRAILLE_NUMBERS.getD (c - 48) 0])
              (by omega)]
            simp
      · simp only [hd, Bool.false_eq_true, if_false] at h ⊢
        by_cases hu : isUpperCh c = true
        · simp only [hu, if_true, List.length_cons] at h ⊢
          have hci : ci < NUM_BRAILLE_CELLS := by omega
          have hci1 : ci + 1 < NUM_BRAILLE_CELLS := by omega
          simp only [if_pos hci, if_pos hci1]
          rw [ih (ci + 1 + 1) false
            ((em ++ [BRAILLE_CAPITAL_SIGN]) ++
              [BRAILLE_ALPHABET.getD (c - 65) 0])
            (by omega)]
          simp
        · simp only [hu, Bool.false_eq_true, if_false] at h ⊢
          by_cases hl : isLowerCh c = true
          · simp only [hl, if_true, List.length_cons] at h ⊢
            have hci : ci < NUM_BRAILLE_CELLS := by omega
            simp only [if_pos hci]
            rw [ih (ci + 1) false (em ++ [BRAILLE_ALPHABET.getD (c - 97) 0])
              (by omega)]
            simp
          · simp only [hl, Bool.false_eq_true, if_false] at h ⊢
            by_cases hsp : c = 32
            · simp only [hsp, if_true, List.length_cons] at h ⊢
              have hci : ci < NUM_BRAILLE_CELLS := by omega
              simp only [if_pos hci]
              rw [ih (ci + 1) false (em ++ [BRAILLE_SPACE]) (by omega)]
              simp
            · simp only [hsp, if_false, List.length_cons] at h ⊢
              have hci : ci < NUM_BRAILLE_CELLS := by omega
              simp only [if_pos hci]
              rw [ih (ci + 1) false (em ++ [charToBraille c]) (by omega)]
              simp

lemma displayTextStep_bounds (s : TextLoopState) (c : Nat)
    (hs : s.cellIndex ≤ NUM_BRAILLE_CELLS) :
    (displayTextStep s c).cellIndex ≤ NUM_BRAILLE_CELLS
    ∧ (displayTextStep s c).emitted.length + s.cellIndex
        = s.emitted.length + (displayTextStep s c).cellIndex := by
  obtain ⟨em, ci, nm⟩ := s
  simp only at hs
  simp only [displayTextStep]
  by_cases hd : isDigitCh c = true
  · simp only [hd, if_true]
    cases nm with
    | true =>
        simp only [Bool.not_true, Bool.false_eq_true, if_false]
        by_cases hci : ci < NUM_BRAILLE_CELLS
        · simp only [if_pos hci]
          exact ⟨by omega, by simp_arith⟩
        · simp only [if_neg hci]
          exact ⟨hs, by trivial⟩
    | false =>
        simp only [Bool.not_false, if_true]
        by_cases hci : ci < NUM_BRAILLE_CELLS
        · simp only [if_pos hci]
          by_cases hci1 : ci + 1 < NUM_BRAILLE_CELLS
          · simp only [if_pos hci1]
            exact ⟨by omega, by simp_arith⟩
          · simp only [if_neg hci1]
            exact ⟨by omega, by simp_arith⟩
        · simp only [if_neg hci]
          exact ⟨hs, by trivial⟩
  · simp only [hd, Bool.false_eq_true, if_false]
    by_cases hu : isUpperCh c = true
    · simp only [hu, if_true]
      by_cases hci : ci < NUM_BRAILLE_CELLS
      · simp only [if_pos hci]
        by_cases hci1 : ci + 1 < NUM_BRAILLE_CELLS
        · simp only [if_pos hci1]
          exact ⟨by omega, by simp_arith⟩
        · simp only [if_neg hci1]
          exact ⟨by omega, by simp_arith⟩
      · simp only [if_neg hci]
        exact ⟨hs, by trivial⟩
    · simp only [hu, Bool.false_eq_true, if_false]
      by_cases hl : isLowerCh c = true
      · simp only [hl, if_true]
        by_cases hci : ci < NUM_BRAILLE_CELLS
        · simp only [if_pos hci]
          exact ⟨by omega, by simp_arith⟩
        · simp only [if_neg hci]
          exact ⟨hs, by trivial⟩
      · simp only [hl, Bool.false_eq_true, if_false]
        by_cases hsp : c = 32
        · simp only [hsp, if_true]
          by_cases hci : ci < NUM_BRAILLE_CELLS
          · simp only [if_pos hci]
            exact ⟨by omega, by simp_arith⟩
          · simp only [if_neg hci]
            exact ⟨hs, by trivial⟩
        · simp only [hsp, if_false]
          by_cases hci : ci < NUM_BRAILLE_CELLS
          · simp only [if_pos hci]
            exact ⟨by omega, by simp_arith⟩
          · simp only [if_neg hci]
            exact ⟨hs, by trivial⟩

lemma displayTextLoop_bounds :
    ∀ (text : List Nat) (s : TextLoopState),
      s.cellIndex ≤ NUM_BRAILLE_CELLS →
      (displayTextLoop text s).cellIndex ≤ NUM_BRAILLE_CELLS
      ∧ (displayTextLoop text s).emitted.length + s.cellIndex
          = s.emitted.length + (displayTextLoop text s).cellIndex := by
  intro text
  induction text with
  | nil =>
      intro s hs
      exact ⟨hs, by trivial⟩
  | cons c rest ih =>
      intro s hs
      simp only [displayTextLoop]
      by_cases hci : s.cellIndex < NUM_BRAILLE_CELLS
      · rw [if_pos hci]
        have h1 := displayTextStep_bounds s c hs
        have h2 := ih (displayTextStep s c) h1.1
        exact ⟨h2.1, by omega⟩
      · rw [if_neg hci]
        exact ⟨hs, by trivial⟩

lemma refresh_sr (st : BrailleDisplay) (now : Nat) :
    (refresh st now).shiftRegisterData = st.shiftRegisterData := by
  unfold refresh
  split <;> rfl

/-! ## Claim theorems -/

/-- C1, counterexample: the claim asserts that in every reachable state —
including right after construction — exactly one of each dot's two
output-buffer bits is set.  In the constructed initial state the
constructor has only run `clearShiftRegisters`, so for dot 0 (retracted,
`currentState = false`) neither output bit 0 (raise) nor output bit 1
(retract) is set: the retract bit does not equal the negation of
`currentState`, and "exactly one" fails. -/
theorem C1_counterexample :
    (initialDisplay.dotStates 0).currentState = false
    ∧ srBit initialDisplay.shiftRegisterData (2 * 0) = false
    ∧ srBit initialDisplay.shiftRegisterData (2 * 0 + 1) = false
    ∧ ¬ (srBit initialDisplay.shiftRegisterData (2 * 0) = true
        ∨ srBit initialDisplay.shiftRegisterData (2 * 0 + 1) = true) := by
  decide

/-- C1, amended: whenever the output buffer has just been rebuilt by
`updateShiftRegisters` (as after every immediate `setDotState`, whose
resulting buffer is exactly `updateShiftRegisters` of its resulting dot
states — third conjunct — and after every committing
`processPendingActions`), for every dot d < 60 the raise bit
(`outputIndex 2*d`) equals the dot's `currentState` and the retract bit
(`outputIndex 2*d+1`) equals its negation, so exactly one of the two is
set.  The buffer is all zeros (neither bit set) after construction and
after `clearDisplay`, so the claimed invariant does not hold there. -/
theorem C1_output_bits_complementary (ds : Nat → DotState) (d : Nat)
    (hd : d < TOTAL_DOTS) :
    srBit (updateShiftRegisters ds) (2 * d) = (ds d).currentState
    ∧ srBit (updateShiftRegisters ds) (2 * d + 1) = !(ds d).currentState
    ∧ ∀ (st : BrailleDisplay) (s : Bool) (now : Nat),
        (setDotState st d s true now).shiftRegisterData
          = updateShiftRegisters (setDotState st d s true now).dotStates := by
  refine ⟨(srBit_usr_fold ds TOTAL_DOTS le_rfl d hd).1,
    (srBit_usr_fold ds TOTAL_DOTS le_rfl d hd).2, ?_⟩
  intro st s now
  unfold setDotState
  rw [if_neg (not_le.mpr hd), if_pos rfl]
  dsimp only
  rw [refresh_sr, refresh_dotStates]

/-- C1, witness for the amended theorem at the initial dot states and
dot 0: the rebuilt buffer has the raise bit clear and the retract bit set
for the retracted dot. -/
theorem C1_witness :
    srBit (updateShiftRegisters initialDisplay.dotStates) (2 * 0)
        = false
    ∧ srBit (updateShiftRegisters initialDisplay.dotStates) (2 * 0 + 1)
        = true := by
  have h := C1_output_bits_complementary initialDisplay.dotStates 0 (by decide)
  exact ⟨h.1.trans (by decide), h.2.1.trans (by decide)⟩

/-- C2: after a deferred `setDotState(d, s, immediate=false)` on a valid
dot d at time `now`, the dot's targetState is s, actionPending is true,
actionTime is `now + ACTUATOR_SETTLE_TIME` (50 ms), and currentState is
unchanged; a subsequent `processPendingActions` (what `update()` pumps) at
any time t < actionTime leaves the dot's currentState unchanged, and at
any time t2 ≥ actionTime it sets currentState = targetState and clears
actionPending. -/
theorem C2_deferred_setDotState_commit (st : BrailleDisplay) (d : Nat)
    (s : Bool) (now t t2 : Nat) (hd : d < TOTAL_DOTS)
    (ht : t < now + ACTUATOR_SETTLE_TIME)
    (ht2 : now + ACTUATOR_SETTLE_TIME ≤ t2) :
    ACTUATOR_SETTLE_TIME = 50
    ∧ ((setDotState st d s false now).dotStates d).targetState = s
    ∧ ((setDotState st d s false now).dotStates d).actionPending = true
    ∧ ((setDotState st d s false now).dotStates d).actionTime
        = now + ACTUATOR_SETTLE_TIME
    ∧ ((setDotState st d s false now).dotStates d).currentState
        = (st.dotStates d).currentState
    ∧ ((processPendingActions (setDotState st d s false now) t).dotStates
        d).currentState = (st.dotStates d).currentState
    ∧ ((processPendingActions (setDotState st d s false now) t2).dotStates
        d).currentState = s
    ∧ ((processPendingActions (setDotState st d s false now) t2).dotStates
        d).actionPending = false := by
  have h1 := setDotState_deferred_dotStates_self st s now hd
  refine ⟨rfl, by rw [h1], by rw [h1], by rw [h1], by rw [h1], ?_, ?_, ?_⟩
  · rw [processPendingActions_dotStates, h1]
    rw [if_neg (fun h => by
      have h3 : now + ACTUATOR_SETTLE_TIME ≤ t := h.2.2
      omega)]
  · rw [processPendingActions_dotStates, h1,
      if_pos ⟨hd, rfl, show now + ACTUATOR_SETTLE_TIME ≤ t2 from ht2⟩]
  · rw [processPendingActions_dotStates, h1,
      if_pos ⟨hd, rfl, show now + ACTUATOR_SETTLE_TIME ≤ t2 from ht2⟩]

/-- C2, witness at dot 0 of the initial display, scheduled at time 0:
a tick at 49 leaves the dot retracted, a tick at 50 raises it. -/
theorem C2_witness :
    ((processPendingActions (setDotState initialDisplay 0 true false 0)
        49).dotStates 0).currentState = false
    ∧ ((processPendingActions (setDotState initialDisplay 0 true false 0)
        50).dotStates 0).currentState = true := by
  have h := C2_deferred_setDotState_commit initialDisplay 0 true 0 49 50
    (by decide) (by decide) (by decide)
  exact ⟨(h.2.2.2.2.2.1).trans (by decide), h.2.2.2.2.2.2.1⟩

/-- C3, counterexample: the claim asserts that a second deferred
`setDotState` on a dot with a pending action leaves the previously
scheduled actionTime unchanged.  On dot 0: a deferred call at time 0
schedules actionTime 50; a second deferred call at time 10 RESCHEDULES
actionTime to 60 (= 10 + ACTUATOR_SETTLE_TIME), so the actionTime is not
left unchanged and the replaced target cannot commit sooner than a full
settle interval after the overwrite. -/
theorem C3_counterexample :
    ((setDotState initialDisplay 0 true false 0).dotStates 0).actionTime
        = 50
    ∧ ((setDotState (setDotState initialDisplay 0 true false 0)
        0 false false 10).dotStates 0).actionTime = 60
    ∧ ¬ (((setDotState (setDotState initialDisplay 0 true false 0)
        0 false false 10).dotStates 0).actionTime
        = ((setDotState initialDisplay 0 true false 0).dotStates
            0).actionTime) := by
  decide

/-- C3, amended: overwriting a pending deferred target with a second
deferred `setDotState` at time n2 is last-write-wins on targetState, but
it also reschedules actionTime to `n2 + ACTUATOR_SETTLE_TIME`; hence a
`processPendingActions` at any time t earlier than a full settle interval
after the overwrite leaves the dot's currentState unchanged — the
replaced target cannot commit early. -/
theorem C3_overwrite_reschedules (st : BrailleDisplay) (d : Nat)
    (s1 s2 : Bool) (n1 n2 : Nat) (hd : d < TOTAL_DOTS) :
    ((setDotState (setDotState st d s1 false n1) d s2 false n2).dotStates
        d).targetState = s2
    ∧ ((setDotState (setDotState st d s1 false n1) d s2 false n2).dotStates
        d).actionTime = n2 + ACTUATOR_SETTLE_TIME
    ∧ ((setDotState (setDotState st d s1 false n1) d s2 false n2).dotStates
        d).actionPending = true
    ∧ ∀ t, t < n2 + ACTUATOR_SETTLE_TIME →
        ((processPendingActions
            (setDotState (setDotState st d s1 false n1) d s2 false n2)
            t).dotStates d).currentState
          = (st.dotStates d).currentState := by
  have h1 := setDotState_deferred_dotStates_self st s1 n1 hd
  have h2 := setDotState_deferred_dotStates_self
    (setDotState st d s1 false n1) s2 n2 hd
  refine ⟨by rw [h2], by rw [h2], by rw [h2], ?_⟩
  intro t ht
  rw [processPendingActions_dotStates, h2]
  rw [if_neg (fun h => by
    have h3 : n2 + ACTUATOR_SETTLE_TIME ≤ t := h.2.2
    omega)]
  rw [h1]

/-- C3, witness for the amended theorem at dot 0: the overwrite at time 10
carries actionTime 10 + ACTUATOR_SETTLE_TIME. -/
theorem C3_witness :
    ((setDotState (setDotState initialDisplay 0 true false 0)
        0 false false 10).dotStates 0).actionTime
      = 10 + ACTUATOR_SETTLE_TIME :=
  (C3_overwrite_reschedules initialDisplay 0 true false 0 10
    (by decide)).2.1

set_option maxRecDepth 100000 in
/-- C4, counterexample: the claim asserts that with the display enabled,
`setCellPattern` commits all six just-scheduled dot actions within the
call.  Enabling the initial display and calling
`setCellPattern(0, 0x01)` at time 5 leaves dot 0 with targetState = true
but currentState still false and the action still pending (actionTime 55):
the `processPendingActions` run inside the call only commits actions
whose time has already arrived, never the ones just scheduled 50 ms
ahead. -/
theorem C4_counterexample :
    (enable initialDisplay 0).displayEnabled = true
    ∧ ((setCellPattern (enable initialDisplay 0) 0 1 5).dotStates
        0).targetState = true
    ∧ ((setCellPattern (enable initialDisplay 0) 0 1 5).dotStates
        0).currentState = false
    ∧ ((setCellPattern (enable initialDisplay 0) 0 1 5).dotStates
        0).actionPending = true := by
  decide

/-- C4, amended: `setCellPattern(i, p)` on a valid cell — enabled or not —
leaves every one of the cell's six dots with its new targetState, with
actionPending set, actionTime = now + ACTUATOR_SETTLE_TIME and
currentState unchanged: the in-call `processPendingActions` commits only
previously due actions, and the cell's own update still waits out the
settle time. -/
theorem C4_setCellPattern_defers (st : BrailleDisplay) (i d p now : Nat)
    (hi : i < NUM_BRAILLE_CELLS) (hd : d < DOTS_PER_CELL) :
    ((setCellPattern st i p now).dotStates
        (i * DOTS_PER_CELL + d)).targetState = (p &&& (1 <<< d) != 0)
    ∧ ((setCellPattern st i p now).dotStates
        (i * DOTS_PER_CELL + d)).actionPending = true
    ∧ ((setCellPattern st i p now).dotStates
        (i * DOTS_PER_CELL + d)).actionTime = now + ACTUATOR_SETTLE_TIME
    ∧ ((setCellPattern st i p now).dotStates
        (i * DOTS_PER_CELL + d)).currentState
      = (st.dotStates (i * DOTS_PER_CELL + d)).currentState := by
  have h := setCellPattern_dotStates_self st p now hi hd
  exact ⟨by rw [h], by rw [h], by rw [h], by rw [h]⟩

/-- C4, witness for the amended theorem: the enabled-display call of the
counterexample indeed leaves dot 0 of cell 0 pending until time 55. -/
theorem C4_witness :
    ((setCellPattern (enable initialDisplay 0) 0 1 5).dotStates
        (0 * DOTS_PER_CELL + 0)).actionTime = 5 + ACTUATOR_SETTLE_TIME :=
  (C4_setCellPattern_defers (enable initialDisplay 0) 0 0 1 5
    (by decide) (by decide)).2.2.1

/-- C5: whenever the encoded output fits on the display, the sequence of
cells `displayText` writes (from startCell 0) equals the reference
encoding that emits exactly one NUMBER-SIGN cell immediately before the
first digit of each maximal digit run (none before later digits of the
run) and exactly one CAPITAL-SIGN cell immediately before each uppercase
letter and never before a lowercase one; in particular the text "5"
(ASCII 53) yields exactly the 2 cells [NUMBER_SIGN, digit-5 pattern] and
"Ab" (ASCII 65, 98) yields exactly the 3 cells [CAPITAL_SIGN, letter-A
pattern, letter-b pattern]. -/
theorem C5_displayText_prefix_rules (text : List Nat)
    (h : (specEncodeText text false).length ≤ NUM_BRAILLE_CELLS) :
    displayTextEmitted text 0 = specEncodeText text false
    ∧ displayTextEmitted [53] 0 = [BRAILLE_NUMBER_SIGN, 0x11]
    ∧ displayTextEmitted [65, 98] 0
        = [BRAILLE_CAPITAL_SIGN, 0x01, 0x03] := by
  refine ⟨?_, by decide, by decide⟩
  unfold displayTextEmitted
  rw [if_neg (by decide)]
  rw [displayTextLoop_emitted_eq_spec text 0 false [] (by omega)]
  exact List.nil_append _

/-- C5, witness: the two concrete encodings of the claim, obtained from
the theorem at the texts "5" and "Ab". -/
theorem C5_witness :
    displayTextEmitted [53] 0 = [60, 17]
    ∧ displayTextEmitted [65, 98] 0 = [32, 1, 3] := by
  refine ⟨((C5_displayText_prefix_rules [53] (by decide)).1).trans
    (by decide), ((C5_displayText_prefix_rules [65, 98] (by decide)).1).trans
    (by decide)⟩

/-- C6, counterexample: the claim asserts that a CAPITAL-SIGN prefix cell
is never written without the letter cell it prefixes.  Encoding nine
letters 'a' (ASCII 97) followed by 'J' (ASCII 74) fills cells 0..8 with
the letter-a pattern and writes the CAPITAL-SIGN into the last cell 9;
the guarded emission of J's letter cell then fails on capacity, so the
display ends with a dangling CAPITAL-SIGN prefix — a partial unit. -/
theorem C6_counterexample :
    displayTextEmitted [97, 97, 97, 97, 97, 97, 97, 97, 97, 74] 0
      = [1, 1, 1, 1, 1, 1, 1, 1, 1, BRAILLE_CAPITAL_SIGN] := by
  decide

/-- C6, amended: for every input text, encoding stops silently at the
last available cell — no error is raised and no output wraps around to
earlier cells: at most `NUM_BRAILLE_CELLS - startCell` cells are written,
all at indices below `NUM_BRAILLE_CELLS`.  However, a CAPITAL-SIGN or
NUMBER-SIGN prefix cell CAN be emitted as the last available cell with
the letter or digit cell it prefixes cut off (see the counterexample), so
partial units are possible at the truncation point. -/
theorem C6_displayText_truncates (text : List Nat) (startCell : Nat)
    (hs : startCell < NUM_BRAILLE_CELLS) :
    (displayTextEmitted text startCell).length + startCell
      ≤ NUM_BRAILLE_CELLS := by
  unfold displayTextEmitted
  rw [if_neg (not_le.mpr hs)]
  have h := displayTextLoop_bounds text ⟨[], startCell, false⟩
    (Nat.le_of_lt hs)
  dsimp only at h
  simp only [List.length_nil] at h
  omega

/-- C6, witness: encoding a 12-character text from startCell 0 emits at
most 10 cells. -/
theorem C6_witness :
    (displayTextEmitted [97, 97, 97, 97, 97, 97, 97, 97, 97, 97, 97, 97]
        0).length + 0 ≤ NUM_BRAILLE_CELLS :=
  C6_displayText_truncates [97, 97, 97, 97, 97, 97, 97, 97, 97, 97, 97, 97]
    0 (by decide)

/-- C7: `mirrorBraillePattern` swaps the dot pairs (1,4), (2,5), (3,6) —
bit i of the mirror equals bit (i+3) mod 6 of the argument — and is an
involution on every 6-bit pattern p in [0, 0x3F]. -/
theorem C7_mirror_involution (p : Nat) (hp : p < 64) :
    Nat.testBit (mirrorBraillePattern p) 3 = Nat.testBit p 0
    ∧ Nat.testBit (mirrorBraillePattern p) 4 = Nat.testBit p 1
    ∧ Nat.testBit (mirrorBraillePattern p) 5 = Nat.testBit p 2
    ∧ Nat.testBit (mirrorBraillePattern p) 0 = Nat.testBit p 3
    ∧ Nat.testBit (mirrorBraillePattern p) 1 = Nat.testBit p 4
    ∧ Nat.testBit (mirrorBraillePattern p) 2 = Nat.testBit p 5
    ∧ mirrorBraillePattern (mirrorBraillePattern p) = p := by
  have h : ∀ q, q < 64 →
      (Nat.testBit (mirrorBraillePattern q) 3 = Nat.testBit q 0
      ∧ Nat.testBit (mirrorBraillePattern q) 4 = Nat.testBit q 1
      ∧ Nat.testBit (mirrorBraillePattern q) 5 = Nat.testBit q 2
      ∧ Nat.testBit (mirrorBraillePattern q) 0 = Nat.testBit q 3
      ∧ Nat.testBit (mirrorBraillePattern q) 1 = Nat.testBit q 4
      ∧ Nat.testBit (mirrorBraillePattern q) 2 = Nat.testBit q 5
      ∧ mirrorBraillePattern (mirrorBraillePattern q) = q) := by
    decide
  exact h p hp

/-- C7, witness at the pattern 0x2A (dots 2, 4, 6): mirroring twice is the
identity. -/
theorem C7_witness :
    mirrorBraillePattern (mirrorBraillePattern 42) = 42 :=
  (C7_mirror_involution 42 (by decide)).2.2.2.2.2.2

/-- C8: for every valid cell index i in [0, 10) and every pattern byte p
in [0, 255], `setCellPattern(i, p)` followed by `getCellPattern(i)`
returns `p &&& 0x3F`. -/
theorem C8_set_get_roundtrip (st : BrailleDisplay) (i p now : Nat)
    (hi : i < NUM_BRAILLE_CELLS) (hp : p < 256) :
    getCellPattern (setCellPattern st i p now) i = p &&& 0x3F := by
  unfold getCellPattern
  rw [if_neg (not_not_intro (isValidBrailleCell_true hi))]
  rw [setCellPattern_cells_self st p now hi]

/-- C8, witness: setting pattern 0xAB on cell 3 reads back 0x2B. -/
theorem C8_witness :
    getCellPattern (setCellPattern initialDisplay 3 171 7) 3 = 43 :=
  (C8_set_get_roundtrip initialDisplay 3 171 7 (by decide)
    (by decide)).trans (by decide)

/-- C9, counterexample: the claim asserts isActive iff the stored 6-bit
pattern is nonzero.  `setCellPattern(0, 64)` stores pattern
64 &&& 0x3F = 0 (so `getCellPattern` returns 0), yet sets isActive from
the unmasked argument (64 ≠ 0), leaving isActive = true while the stored
pattern is zero. -/
theorem C9_counterexample :
    ((setCellPattern initialDisplay 0 64 0).cells 0).isActive = true
    ∧ getCellPattern (setCellPattern initialDisplay 0 64 0) 0 = 0 := by
  decide

/-- C9, amended: after `setCellPattern(i, p)` on a valid cell, isActive
equals `p ≠ 0` computed from the UNMASKED argument p, which agrees with
`getCellPattern(i) ≠ 0` except for p in {64, 128, 192} where the masked
stored pattern is zero but isActive is true. -/
theorem C9_isActive_from_raw_pattern (st : BrailleDisplay) (i p now : Nat)
    (hi : i < NUM_BRAILLE_CELLS) (hp : p < 256) :
    ((setCellPattern st i p now).cells i).isActive = (p != 0) := by
  rw [setCellPattern_cells_self st p now hi]

/-- C9, witness for the amended theorem at p = 64: isActive is (64 ≠ 0),
that is true, although the stored masked pattern is zero. -/
theorem C9_witness :
    ((setCellPattern initialDisplay 0 64 0).cells 0).isActive = true :=
  (C9_isActive_from_raw_pattern initialDisplay 0 64 0 (by decide)
    (by decide)).trans (by decide)

/-- C10: `charToBraille` maps the uppercase and lowercase forms of the
same letter to the identical pattern (the bare letter pattern from
`BRAILLE_ALPHABET`), and `displayChar` of an uppercase letter writes only
that bare letter pattern into the addressed cell, leaving every other
cell's pattern untouched — so unlike `displayText` it never emits a
CAPITAL-SIGN cell. -/
theorem C10_displayChar_case_insensitive (st : BrailleDisplay)
    (k i now : Nat) (hk : k < 26) (hi : i < NUM_BRAILLE_CELLS) :
    charToBraille (65 + k) = charToBraille (97 + k)
    ∧ getCellPattern (displayChar st (65 + k) i now) i
        = BRAILLE_ALPHABET.getD k 0
    ∧ ∀ j, j ≠ i → ((displayChar st (65 + k) i now).cells j).pattern
        = (st.cells j).pattern := by
  have hfold : ∀ k2, k2 < 26 →
      (charToBraille (65 + k2) = charToBraille (97 + k2)
      ∧ charToBraille (65 + k2) &&& 0x3F = BRAILLE_ALPHABET.getD k2 0) := by
    decide
  refine ⟨(hfold k hk).1, ?_, ?_⟩
  · unfold displayChar getCellPattern
    rw [if_neg (not_not_intro (isValidBrailleCell_true hi)),
      if_neg (not_not_intro (isValidBrailleCell_true hi))]
    rw [setCellPattern_cells_self st _ now hi]
    exact (hfold k hk).2
  · intro j hj
    unfold displayChar
    rw [if_neg (not_not_intro (isValidBrailleCell_true hi))]
    rw [setCellPattern_cells_ne st _ now hj]

/-- C10, witness: displaying 'A' (ASCII 65) on cell 2 stores the bare
letter-a pattern 0x01 there and leaves cell 0's pattern unchanged. -/
theorem C10_witness :
    getCellPattern (displayChar initialDisplay (65 + 0) 2 0) 2 = 1
    ∧ ((displayChar initialDisplay (65 + 0) 2 0).cells 0).pattern
        = (initialDisplay.cells 0).pattern := by
  have h := C10_displayChar_case_insensitive initialDisplay 0 2 0
    (by decide) (by decide)
  exact ⟨(h.2.1).trans (by decide), h.2.2 0 (by decide)⟩
